import Mathlib

/-!
Verification development for the fastapi-jsonrpc dispatch and batch-execution
engine (file src/fastapi_jsonrpc/__init__.py).  The Python code is shallowly
embedded: JSON values become an inductive type, the error taxonomy becomes a
structure of constant code/message pairs, and the stateful dispatch loop
becomes explicit list processing.  External collaborators (pydantic field
validation, dependency injection) are modelled as oracle functions supplied
as parameters, exactly at the interface the spec assigns them.
-/

namespace Jrpc

/-- JSON values.  Numbers are modelled as integers: every numeric literal the
dispatch core inspects (error codes, request ids) is an integer.  Objects are
ordered association lists, mirroring the insertion-ordered Python dicts that
jsonable_encoder serialises. -/
inductive Json where
  | null
  | bool (b : Bool)
  | num (n : Int)
  | str (s : String)
  | arr (elems : List Json)
  | obj (fields : List (String × Json))

/-- First binding of a key in an object field list (Python dicts have unique
keys, so first and only). -/
def lookupField : List (String × Json) → String → Option Json
  | [], _ => none
  | (k, v) :: rest, key => if k = key then some v else lookupField rest key

/-- Field access on a JSON value; none when the value is not an object. -/
def Json.getField : Json → String → Option Json
  | Json.obj fields, key => lookupField fields key
  | _, _ => none

/-- Membership test for a key, the embedding of the Python expression
key in req for an object value. -/
def Json.hasKey (j : Json) (key : String) : Bool :=
  (j.getField key).isSome

/-- Python truthiness of a JSON value, used by the source in statements such
as if resp_data and if errors. -/
def Json.truthy : Json → Bool
  | .null => false
  | .bool b => b
  | .num n => n != 0
  | .str s => s != ""
  | .arr l => !l.isEmpty
  | .obj l => !l.isEmpty

def Json.isStr : Json → Bool
  | .str _ => true
  | _ => false

def Json.isNum : Json → Bool
  | .num _ => true
  | _ => false

def Json.isArr : Json → Bool
  | .arr _ => true
  | _ => false

/-! ## Error taxonomy (source classes BaseError, ParseError, ..., lines 59-239)

Each error kind is a pair of immutable constants CODE and MESSAGE.  An error
instance additionally carries a data payload (default an empty dict) and the
optional back-reference to the raw request bound by bind_req. -/

/-- An error kind: the constant CODE / MESSAGE pair of a BaseError subclass. -/
structure ErrorKind where
  code : Int
  message : String
  deriving DecidableEq

def ParseError : ErrorKind := { code := -32700, message := "Parse error" }

def InvalidRequest : ErrorKind := { code := -32600, message := "Invalid Request" }

def MethodNotFound : ErrorKind := { code := -32601, message := "Method not found" }

def InvalidParams : ErrorKind := { code := -32602, message := "Invalid params" }

def InternalError : ErrorKind := { code := -32603, message := "Internal error" }

/-- An instance of a BaseError subclass: the kind, the data payload set in
init (None becomes an empty dict) and the raw request bound by bind_req
(none until bound). -/
structure BaseError where
  kind : ErrorKind
  data : Json := Json.obj []
  req : Option Json := none

/-- Embedding of BaseError.get_resp (source lines 102-122): build the error
member from the constant code and message, attach data only when it is truthy,
and echo the id from the bound raw request when that request is a dict. -/
def get_resp (e : BaseError) : Json :=
  let errorFields : List (String × Json) :=
    [("code", Json.num e.kind.code), ("message", Json.str e.kind.message)]
  let errorFields :=
    if e.data.truthy then errorFields ++ [("data", e.data)] else errorFields
  let idVal : Json :=
    match e.req with
    | some (Json.obj fields) => (lookupField fields "id").getD Json.null
    | _ => Json.null
  Json.obj [("jsonrpc", Json.str "2.0"), ("error", Json.obj errorFields), ("id", idVal)]

/-! ## Validation bridge (source request_validation_error, lines 269-293) -/

/-- One path segment of a pydantic error location: either a field name or a
positional index. -/
inductive LocElem where
  | s (v : String)
  | i (v : Int)
  deriving DecidableEq

/-- One record of a pydantic ValidationError, as returned by exc.errors().
The optional ctx member is omitted: no code path of the dispatch core reads
it. -/
structure ValErr where
  loc : List LocElem
  msg : String
  type : String
  deriving DecidableEq

def LocElem.toJson : LocElem → Json
  | .s v => Json.str v
  | .i v => Json.num v

/-- JSON encoding of one validation error record, in the key order of the
pydantic error dicts (loc, msg, type). -/
def ValErr.toJson (e : ValErr) : Json :=
  Json.obj [("loc", Json.arr (e.loc.map LocElem.toJson)),
            ("msg", Json.str e.msg), ("type", Json.str e.type)]

/-- The data payload carried by InvalidRequest / InvalidParams: a dict with a
single key errors holding the list of error records. -/
def errorsData (errs : List ValErr) : Json :=
  Json.obj [("errors", Json.arr (errs.map ValErr.toJson))]

/-- The partition loop of request_validation_error (source lines 275-286):
errors whose location starts with body, double-underscore request, params and
goes deeper are params errors with the prefix of length three stripped; errors
whose location starts with body, double-underscore request are request errors
with the prefix of length two stripped; everything else (query, cookies,
headers, ...) is a request error kept as is.  Returns the pair
(params errors, request errors) in arrival order. -/
def partition_validation_errors (errs : List ValErr) : List ValErr × List ValErr :=
  errs.foldl
    (fun acc err =>
      if err.loc.take 3 = [LocElem.s "body", LocElem.s "__request__", LocElem.s "params"]
          ∧ err.loc.length > 3 then
        (acc.1 ++ [{ err with loc := err.loc.drop 3 }], acc.2)
      else if err.loc.take 2 = [LocElem.s "body", LocElem.s "__request__"] then
        (acc.1, acc.2 ++ [{ err with loc := err.loc.drop 2 }])
      else
        (acc.1, acc.2 ++ [err]))
    ([], [])

/-- Embedding of request_validation_error (source lines 269-293): partition
the errors, then return InvalidRequest with the request-level errors when that
group is non-empty, and InvalidParams with the params-level errors only
otherwise. -/
def request_validation_error (errs : List ValErr) : BaseError :=
  let groups := partition_validation_errors errs
  match groups.2 with
  | _ :: _ => { kind := InvalidRequest, data := errorsData groups.2 }
  | [] => { kind := InvalidParams, data := errorsData groups.1 }

/-! ## Single-request executor (source MethodRoute, lines 296-486)

The per-method machinery that belongs to external collaborators is modelled
as oracle functions carried by the route: validation is the outcome of
solve_dependencies against the generated per-method request model (a list of
pydantic error records, empty on success), and handler is the outcome of
calling the user function. -/

/-- Outcome of invoking the user handler function: a result value, a raised
BaseError instance, or any other raised exception (carried as its message,
which the engine must never leak). -/
inductive HandlerResult where
  | ok (result : Json)
  | baseError (e : BaseError)
  | unexpected (exc : String)

/-- A registered method route: its name (the last path segment), the declared
error kinds (used only for generated interface metadata), and the two
collaborator oracles. -/
structure MethodRouteModel where
  name : String
  declaredErrors : List ErrorKind
  validation : Json → List ValErr
  handler : Json → HandlerResult

/-- Embedding of the serialize_response call on the per-method response model
(source lines 470-486 together with the per-method model of lines 358-365):
the response dict is validated against the model with fields jsonrpc, id,
result; all three keys are explicitly set, so skip_defaults removes none of
them, and the encoder emits them in model field order.  The id is read from
the raw request dict with get, so a missing key becomes null. -/
def serialize_success (result : Json) (req : Json) : Json :=
  Json.obj [("jsonrpc", Json.str "2.0"),
            ("id", (req.getField "id").getD Json.null),
            ("result", result)]

/-- Embedding of MethodRoute.jsonrpc_app (source lines 443-486): run the
per-method validation; a non-empty error list raises the converted
request_validation_error; then invoke the handler, re-raising BaseError
instances unchanged and converting any other exception to a bare
InternalError (the exception itself is only logged); on success build and
serialize the result response. -/
def jsonrpc_app (route : MethodRouteModel) (req : Json) : Except BaseError Json :=
  match route.validation req with
  | e :: es => .error (request_validation_error (e :: es))
  | [] =>
    match route.handler req with
    | .baseError err2 => .error err2
    | .unexpected _ => .error { kind := InternalError }
    | .ok result => .ok (serialize_success result req)

/-- The response value jsonrpc_app_content works with (source lines 431-435):
the jsonrpc_app result, or the serialised form of the raised BaseError after
binding the raw request to it. -/
def content_resp (route : MethodRouteModel) (req : Json) : Json :=
  match jsonrpc_app route req with
  | .ok r => r
  | .error e => get_resp { e with req := some req }

/-- Embedding of MethodRoute.jsonrpc_app_content (source lines 428-441):
return the response when it is an error response or the raw request carries
an id key; otherwise there is no content (the request was a notification). -/
def jsonrpc_app_content (route : MethodRouteModel) (req : Json) : Option Json :=
  if (content_resp route req).hasKey "error" || req.hasKey "id" then
    some (content_resp route req)
  else
    none

/-! ## Envelope validation (source JsonRpcRequest, lines 489-497)

JsonRpcRequest.validate applies the pydantic model with fields jsonrpc (strict
string constant 2.0, default 2.0), id (strict string or integer, default
None, None allowed), method (strict string, required), params (dict,
required), extra keys forbidden.  The collaborator is modelled field by field;
message texts follow the pydantic wording. -/

def isValidId : Json → Bool
  | .str _ => true
  | .num _ => true
  | .null => true
  | _ => false

/-- Field-level validation errors of the JsonRpcRequest model on an object,
in model field order, followed by the extra-key errors. -/
def jsonrpcFieldErrors (fields : List (String × Json)) : List ValErr :=
  (match lookupField fields "jsonrpc" with
   | none => []
   | some (Json.str s) =>
     if s = "2.0" then []
     else [{ loc := [LocElem.s "jsonrpc"], msg := "unexpected value", type := "value_error.const" }]
   | some _ => [{ loc := [LocElem.s "jsonrpc"], msg := "str type expected", type := "type_error.str" }])
  ++ (match lookupField fields "id" with
   | none => []
   | some v =>
     if isValidId v then []
     else [{ loc := [LocElem.s "id"], msg := "str type expected", type := "type_error.str" },
           { loc := [LocElem.s "id"], msg := "value is not a valid integer", type := "type_error.integer" }])
  ++ (match lookupField fields "method" with
   | none => [{ loc := [LocElem.s "method"], msg := "field required", type := "value_error.missing" }]
   | some (Json.str _) => []
   | some _ => [{ loc := [LocElem.s "method"], msg := "str type expected", type := "type_error.str" }])
  ++ (match lookupField fields "params" with
   | none => [{ loc := [LocElem.s "params"], msg := "field required", type := "value_error.missing" }]
   | some (Json.obj _) => []
   | some _ => [{ loc := [LocElem.s "params"], msg := "value is not a valid dict", type := "type_error.dict" }])
  ++ (fields.filter (fun kv => !(["jsonrpc", "id", "method", "params"].contains kv.1))).map
       (fun kv => { loc := [LocElem.s kv.1], msg := "extra fields not permitted", type := "value_error.extra" })

/-- Outcome of JsonRpcRequest.validate: success, the DictError raised on a
non-dict value, or a ValidationError with field errors. -/
inductive ValidateResult where
  | ok
  | dictError
  | fieldErrors (errs : List ValErr)

/-- Embedding of JsonRpcRequest.validate as used by the entrypoint (source
line 645): a non-object value raises DictError, an object either passes or
raises a ValidationError with its field errors. -/
def validateJsonRpcRequest : Json → ValidateResult
  | Json.obj fields =>
    match jsonrpcFieldErrors fields with
    | [] => .ok
    | e :: es => .fieldErrors (e :: es)
  | _ => .dictError

/-! ## Batch dispatcher (source EntrypointRoute, lines 514-661) -/

/-- Outcome of one spawned per-item job (source _single_req_job): a returned
response, a raised BaseError, or a raised NoContent (notification). -/
inductive JobResult where
  | resp (j : Json)
  | err (e : BaseError)
  | noContent

/-- The method field of a validated request object.  Only evaluated after
JsonRpcRequest.validate succeeded, which guarantees the field is a string. -/
def methodName (req : Json) : String :=
  match req.getField "method" with
  | some (Json.str s) => s
  | _ => ""

/-- The data payload of the InvalidRequest raised on a non-dict batch item
(source lines 647-649), with the key order of the source literal. -/
def dictErrorData : Json :=
  Json.obj [("errors", Json.arr [Json.obj
    [("loc", Json.arr []),
     ("type", Json.str "type_error.dict"),
     ("msg", Json.str "value is not a valid dict")]])]

/-- Embedding of EntrypointRoute._single_req_job (source lines 641-661):
validate the envelope, resolve the method by exact path match (the entrypoint
path plus slash plus the method name equals a method route path exactly when
the names match), and delegate to jsonrpc_app_content; an unmatched method
raises MethodNotFound with its default empty data. -/
def single_req_job (routes : List MethodRouteModel) (req : Json) : JobResult :=
  match validateJsonRpcRequest req with
  | .dictError => .err { kind := InvalidRequest, data := dictErrorData }
  | .fieldErrors errs => .err (request_validation_error errs)
  | .ok =>
    match routes.find? (fun r => r.name == methodName req) with
    | some route =>
      match jsonrpc_app_content route req with
      | some resp => .resp resp
      | none => .noContent
    | none => .err { kind := MethodNotFound }

/-- The entry one item contributes to the collected response list (source
loop lines 619-629): a returned response as is, a raised BaseError bound to
the raw request and serialised, and nothing for NoContent. -/
def job_entry (req : Json) (r : JobResult) : Option Json :=
  match r with
  | .resp j => some j
  | .err e => some (get_resp { e with req := some req })
  | .noContent => none

/-- The collected response list in original request order: the collection
loop of _entrypoint walks the job list, which was built in input order. -/
def collect_responses (exec : Json → JobResult) (req_list : List Json) : List Json :=
  req_list.filterMap (fun req => job_entry req (exec req))

/-- The request list extracted from the parsed body (source lines 586-589):
an array is a batch, any other value is wrapped as a batch of one. -/
def req_list_of : Json → List Json
  | Json.arr l => l
  | b => [b]

/-- The data payload of the InvalidRequest returned for an empty batch array
(source lines 590-594), with the key order of the source literal. -/
def emptyArrayErrorData : Json :=
  Json.obj [("errors", Json.arr [Json.obj
    [("loc", Json.arr []),
     ("type", Json.str "value_error.empty"),
     ("msg", Json.str "rpc call with an empty array")]])]

/-- The body of the HTTP response: a JSON payload, or no content at all
(the NoContent path of jsonrpc_app_response returns a bodyless response). -/
inductive HttpContent where
  | noContent
  | content (j : Json)

/-- Embedding of EntrypointRoute._entrypoint after a successful JSON parse
(source lines 586-639): an empty array is answered immediately with
InvalidRequest; otherwise every item is executed and the surviving entries
are collected in input order; an empty collection raises NoContent; an array
body yields an array payload, any other body yields the single first entry
unwrapped. -/
def entrypoint_dispatch (body : Json) (exec : Json → JobResult) : HttpContent :=
  match body with
  | Json.arr [] =>
    .content (get_resp { kind := InvalidRequest, data := emptyArrayErrorData })
  | Json.arr (r :: rest) =>
    match collect_responses exec (r :: rest) with
    | [] => .noContent
    | r2 :: rest2 => .content (Json.arr (r2 :: rest2))
  | b =>
    match collect_responses exec [b] with
    | [] => .noContent
    | r2 :: _ => .content r2

/-- The parsed HTTP body handed to the dispatcher, or a JSON parse failure. -/
inductive ParsedBody where
  | ok (body : Json)
  | parseFailure

/-- The HTTP-level response body produced by the entrypoint. -/
structure HttpResponse where
  body : Option Json

/-- Embedding of EntrypointRoute.jsonrpc_app_response together with the parse
handling of _entrypoint (source lines 559-584): a JSON parse failure yields a
ParseError response, NoContent yields a response without a body, and content
is returned as the body. -/
def jsonrpc_app_response (parsed : ParsedBody) (routes : List MethodRouteModel) : HttpResponse :=
  match parsed with
  | .parseFailure => { body := some (get_resp { kind := ParseError }) }
  | .ok b =>
    match entrypoint_dispatch b (single_req_job routes) with
    | .noContent => { body := none }
    | .content c => { body := some c }

/-! ## Concurrent completion model (source lines 596-629)

For a batch of more than one item every job is spawned on the scheduler and
its task handle is stored, paired with its request, in input order; the
collection loop then awaits the handles in that stored order.  A completion
log models the scheduler: the multiset of (index, request, job outcome)
triples in an arbitrary completion order, and awaiting a handle looks its
index up in the log.  The theorems show the collected list is independent of
the completion order. -/

/-- The spawn loop from a given next index: one log entry per request, in
input order. -/
def spawnFrom (exec : Json → JobResult) : Nat → List Json → List (Nat × Json × JobResult)
  | _, [] => []
  | n, req :: rest => (n, req, exec req) :: spawnFrom exec (n + 1) rest

/-- The job log produced by the spawn loop of _entrypoint. -/
def spawn_jobs (exec : Json → JobResult) (req_list : List Json) : List (Nat × Json × JobResult) :=
  spawnFrom exec 0 req_list

/-- Awaiting the task with a given index against a completion log. -/
def await_job (log : List (Nat × Json × JobResult)) (i : Nat) : JobResult :=
  match log.find? (fun t => t.1 == i) with
  | some t => t.2.2
  | none => JobResult.noContent

/-- The collection loop of _entrypoint run against a completion log: walk the
requests in input order, await each task by its index, and keep the entries. -/
def collectFrom (log : List (Nat × Json × JobResult)) : Nat → List Json → List Json
  | _, [] => []
  | n, req :: rest =>
    match job_entry req (await_job log n) with
    | some resp => resp :: collectFrom log (n + 1) rest
    | none => collectFrom log (n + 1) rest

/-! ## Method registration (source lines 31-49, 296-385, 717-732)

Entrypoint.add_method_route builds a MethodRoute and appends it to the route
list.  The constructor rejects a handler parameter named with the reserved
wrapper name, and registers the generated per-method pydantic models in the
global component table keyed by component name: an existing key with a
different schema raises, an existing key with an equal schema is reused
silently.  Schema generation itself belongs to the validation collaborator;
a schema is modelled as an opaque comparable rendering (a string). -/

/-- The registration-relevant shape of a handler function: its name, module,
parameter names, and the schema renderings the collaborator derives from its
annotations. -/
structure FuncSig where
  funcName : String
  module : String
  paramNames : List String
  paramsSchema : String
  resultSchema : String
  deriving DecidableEq

/-- The schema of the generated per-method request model, which embeds the
method name as the constant of the method field and the params schema. -/
def requestSchema (name : String) (paramsSchema : String) : String :=
  "jsonrpc const 2.0; id str or int; method const " ++ name ++ "; params " ++ paramsSchema

/-- The schema of the generated per-method response model, which embeds the
result schema. -/
def responseSchema (resultSchema : String) : String :=
  "jsonrpc const 2.0; id str or int; result " ++ resultSchema

/-- First binding of a component key in the global component table. -/
def compLookup : List ((String × String) × String) → (String × String) → Option String
  | [], _ => none
  | (k, v) :: rest, key => if k = key then some v else compLookup rest key

/-- Embedding of the component_name decorator (source lines 34-49) applied to
one generated model: a fresh key is appended; an existing key is accepted
when the schemas are equal and raises RuntimeError when they differ. -/
def component_name (comps : List ((String × String) × String)) (key : String × String)
    (schema : String) : Except String (List ((String × String) × String)) :=
  match compLookup comps key with
  | some existing =>
    if existing = schema then .ok comps
    else .error "Different models with the same name detected"
  | none => .ok (comps ++ [(key, schema)])

/-- Sequential registration of the generated components of one method. -/
def register_components (comps : List ((String × String) × String)) :
    List ((String × String) × String) → Except String (List ((String × String) × String))
  | [] => .ok comps
  | (key, schema) :: rest =>
    match component_name comps key schema with
    | .error msg => .error msg
    | .ok comps2 => register_components comps2 rest

/-- The components MethodRoute generation registers for a method: the params
model, the request model and the response model, named after the method and
keyed together with the handler module (source lines 345-365). -/
def method_components (name : String) (f : FuncSig) : List ((String × String) × String) :=
  [(("_Params[" ++ name ++ "]", f.module), f.paramsSchema),
   (("_Request[" ++ name ++ "]", f.module), requestSchema name f.paramsSchema),
   (("_Response[" ++ name ++ "]", f.module), responseSchema f.resultSchema)]

/-- Registration state: the global component table and the route list of the
entrypoint (a method route is recorded by its name). -/
structure RegState where
  comps : List ((String × String) × String)
  routes : List String
  deriving DecidableEq

/-- Embedding of Entrypoint.add_method_route (source lines 717-732) together
with the registration-relevant checks of MethodRoute (source lines 309-315,
345-365): the route name defaults to the function name, a handler parameter
named with the reserved wrapper name raises RuntimeError, the generated
components are registered, and the route is appended.  No check compares the
method name against the already-registered route names. -/
def add_method_route (st : RegState) (nameOpt : Option String) (f : FuncSig) :
    Except String RegState :=
  let name := nameOpt.getD f.funcName
  if f.paramNames.contains "__request__" then
    .error "Parameter name reserved, please use other name"
  else
    match register_components st.comps (method_components name f) with
    | .error msg => .error msg
    | .ok comps2 => .ok { comps := comps2, routes := st.routes ++ [name] }

/-- Whether a registration attempt succeeded. -/
def regOk : Except String RegState → Bool
  | .ok _ => true
  | .error _ => false

/-! ## Spec-side characterisations -/

/-- The id echo the spec prescribes for an error response: the value of the
id field of the originating raw request when that request is a JSON object
(null when the field is absent), and null whenever the raw request is not a
JSON object or no raw request was bound. -/
def id_echo : Option Json → Json
  | some (Json.obj fields) => (lookupField fields "id").getD Json.null
  | _ => Json.null

/-- Whether an item outcome is an error response: the job raised a taxonomy
error, or the returned response carries an error member. -/
def outcome_is_error : JobResult → Bool
  | .err _ => true
  | .resp j => j.hasKey "error"
  | .noContent => false

/-! ## Helper lemmas -/

theorem get_resp_id_echo (e : BaseError) :
    (get_resp e).getField "id" = some (id_echo e.req) := by
  cases hr : e.req with
  | none => simp [get_resp, id_echo, Json.getField, lookupField, hr]
  | some j => cases j <;> simp [get_resp, id_echo, Json.getField, lookupField, hr]

theorem get_resp_error_member (e : BaseError) :
    (get_resp e).getField "error" = some (Json.obj
      ([("code", Json.num e.kind.code), ("message", Json.str e.kind.message)] ++
       (if e.data.truthy then [("data", e.data)] else []))) := by
  cases ht : e.data.truthy <;> simp [get_resp, Json.getField, lookupField, ht]

theorem get_resp_has_error_key (e : BaseError) : (get_resp e).hasKey "error" = true := by
  simp [Json.hasKey, get_resp_error_member]

/-! ## C1 -/

/-- C1: request_validation_error partitions the collaborator failure into a
params-level group and an envelope-level group; when both are non-empty the
result is an InvalidRequest carrying only the envelope-level errors, and an
InvalidParams is produced only when the envelope-level group is empty. -/
theorem request_validation_error_invalid_request_precedence (errs : List ValErr)
    (hparams : (partition_validation_errors errs).1 ≠ [])
    (henv : (partition_validation_errors errs).2 ≠ []) :
    request_validation_error errs =
      { kind := InvalidRequest, data := errorsData (partition_validation_errors errs).2,
        req := none } ∧
    ∀ errs2 : List ValErr, (request_validation_error errs2).kind = InvalidParams →
      (partition_validation_errors errs2).2 = [] := by
  constructor
  · cases h : (partition_validation_errors errs).2 with
    | nil => exact absurd h henv
    | cons a t => simp [request_validation_error, h]
  · intro errs2 hkind
    cases h : (partition_validation_errors errs2).2 with
    | nil => rfl
    | cons a t =>
      simp [request_validation_error, h] at hkind
      exact absurd hkind (by decide)

def c1DemoErrs : List ValErr :=
  [{ loc := [LocElem.s "body", LocElem.s "__request__", LocElem.s "params", LocElem.s "x"],
     msg := "field required", type := "value_error.missing" },
   { loc := [LocElem.s "body", LocElem.s "__request__", LocElem.s "jsonrpc"],
     msg := "str type expected", type := "type_error.str" }]

theorem request_validation_error_invalid_request_precedence_witness :
    request_validation_error c1DemoErrs =
      { kind := InvalidRequest,
        data := errorsData
          [{ loc := [LocElem.s "jsonrpc"], msg := "str type expected", type := "type_error.str" }],
        req := none } :=
  (request_validation_error_invalid_request_precedence c1DemoErrs
    (by decide) (by decide)).1

/-! ## C4 -/

/-- C4: a body parsing to an empty JSON array is answered immediately, for
every possible item executor, with a single InvalidRequest whose data is
exactly the errors list holding one record with empty loc, type
value_error.empty and msg rpc call with an empty array. -/
theorem empty_batch_invalid_request (exec : Json → JobResult) :
    entrypoint_dispatch (Json.arr []) exec =
      .content (Json.obj
        [("jsonrpc", Json.str "2.0"),
         ("error", Json.obj
           [("code", Json.num (-32600)), ("message", Json.str "Invalid Request"),
            ("data", Json.obj [("errors", Json.arr [Json.obj
              [("loc", Json.arr []),
               ("type", Json.str "value_error.empty"),
               ("msg", Json.str "rpc call with an empty array")]])])]),
         ("id", Json.null)]) := rfl

/-! ## C6 -/

/-- C6: every error response built from an ErrorInstance echoes the id of the
originating raw request when that request is a JSON object (null when the
field is absent) and null otherwise; the error member always carries the
constant code and message of the kind, and the data member is omitted when
the payload is empty. -/
theorem get_resp_id_echo_and_error_member (e : BaseError) :
    (get_resp e).getField "id" = some (id_echo e.req) ∧
    (get_resp e).getField "error" = some (Json.obj
      ([("code", Json.num e.kind.code), ("message", Json.str e.kind.message)] ++
       (if e.data.truthy then [("data", e.data)] else []))) ∧
    (e.data = Json.obj [] →
      (get_resp e).getField "error" =
        some (Json.obj [("code", Json.num e.kind.code),
                        ("message", Json.str e.kind.message)])) := by
  refine ⟨get_resp_id_echo e, get_resp_error_member e, fun h => ?_⟩
  rw [get_resp_error_member e, h]
  simp [Json.truthy]

theorem get_resp_id_echo_and_error_member_witness :
    (get_resp { kind := MethodNotFound, req := some (Json.obj [("id", Json.num 7)]) }).getField "id"
      = some (Json.num 7) ∧
    (get_resp { kind := MethodNotFound, req := some (Json.obj [("id", Json.num 7)]) }).getField "error"
      = some (Json.obj [("code", Json.num (-32601)), ("message", Json.str "Method not found")]) := by
  have h := get_resp_id_echo_and_error_member
    { kind := MethodNotFound, req := some (Json.obj [("id", Json.num 7)]) }
  exact ⟨h.1, h.2.2 rfl⟩

/-! ## C7 -/

/-- C7: a handler raising anything that is not a BaseError makes jsonrpc_app
fail with a bare InternalError of code -32603; the resulting client-visible
response is a constant that does not depend on the raised exception in any
way (the exception is only logged). -/
theorem unexpected_exception_internal_error (route : MethodRouteModel) (req : Json)
    (exc : String)
    (hv : route.validation req = [])
    (hh : route.handler req = .unexpected exc) :
    jsonrpc_app route req = .error { kind := InternalError } ∧
    InternalError.code = -32603 ∧
    get_resp { kind := InternalError, req := some req } =
      Json.obj [("jsonrpc", Json.str "2.0"),
        ("error", Json.obj [("code", Json.num (-32603)), ("message", Json.str "Internal error")]),
        ("id", id_echo (some req))] := by
  refine ⟨?_, rfl, ?_⟩
  · simp [jsonrpc_app, hv, hh]
  · cases req <;> simp [get_resp, id_echo, Json.truthy, InternalError]

def demoFailRoute : MethodRouteModel :=
  { name := "boom", declaredErrors := [],
    validation := fun _ => [], handler := fun _ => .unexpected "disk exploded" }

/-! ## C8 -/

/-- C8: for a request object carrying an id of string or integer type whose
per-method validation passes and whose handler succeeds, jsonrpc_app returns
the serialized success response, whose id is exactly the request id value
(hence of the same JSON type), alongside the jsonrpc constant and the handler
result. -/
theorem success_response_id_preserved (route : MethodRouteModel)
    (fields : List (String × Json)) (idv result : Json)
    (hid : lookupField fields "id" = some idv)
    (hty : idv.isStr = true ∨ idv.isNum = true)
    (hv : route.validation (Json.obj fields) = [])
    (hok : route.handler (Json.obj fields) = .ok result) :
    jsonrpc_app route (Json.obj fields) = .ok (serialize_success result (Json.obj fields)) ∧
    serialize_success result (Json.obj fields) =
      Json.obj [("jsonrpc", Json.str "2.0"), ("id", idv), ("result", result)] := by
  constructor
  · simp [jsonrpc_app, hv, hok]
  · simp [serialize_success, Json.getField, hid]

def demoProbe : MethodRouteModel :=
  { name := "probe", declaredErrors := [],
    validation := fun _ => [], handler := fun _ => .ok (Json.str "pong") }

def demoRoutes : List MethodRouteModel := [demoProbe]

def strIdFields : List (String × Json) :=
  [("jsonrpc", Json.str "2.0"), ("id", Json.str "abc"),
   ("method", Json.str "probe"), ("params", Json.obj [])]

def numIdFields : List (String × Json) :=
  [("jsonrpc", Json.str "2.0"), ("id", Json.num 42),
   ("method", Json.str "probe"), ("params", Json.obj [])]

theorem success_response_id_preserved_witness :
    serialize_success (Json.str "pong") (Json.obj strIdFields) =
      Json.obj [("jsonrpc", Json.str "2.0"), ("id", Json.str "abc"),
                ("result", Json.str "pong")] ∧
    serialize_success (Json.str "pong") (Json.obj numIdFields) =
      Json.obj [("jsonrpc", Json.str "2.0"), ("id", Json.num 42),
                ("result", Json.str "pong")] :=
  ⟨(success_response_id_preserved demoProbe strIdFields (Json.str "abc") (Json.str "pong")
      rfl (Or.inl rfl) rfl rfl).2,
   (success_response_id_preserved demoProbe numIdFields (Json.num 42) (Json.str "pong")
      rfl (Or.inr rfl) rfl rfl).2⟩

/-! ## C10 -/

theorem find?_update_declared (routes : List MethodRouteModel) (newDecl : List ErrorKind)
    (p : String) :
    (routes.map (fun r => { r with declaredErrors := newDecl })).find? (fun r => r.name == p) =
      (routes.find? (fun r => r.name == p)).map (fun r => { r with declaredErrors := newDecl }) := by
  induction routes with
  | nil => rfl
  | cons r rs ih =>
    cases h : (r.name == p) <;>
      simp [List.find?_cons, h, ih]

theorem single_req_job_ignores_declared (routes : List MethodRouteModel)
    (newDecl : List ErrorKind) (req : Json) :
    single_req_job (routes.map (fun r => { r with declaredErrors := newDecl })) req =
      single_req_job routes req := by
  unfold single_req_job
  cases hvr : validateJsonRpcRequest req with
  | dictError => rfl
  | fieldErrors errs => rfl
  | ok =>
    rw [find?_update_declared]
    cases hf : routes.find? (fun r => r.name == methodName req) with
    | none => rfl
    | some route => rfl

/-- C10: a handler raising any BaseError instance has it propagated to the
client unchanged, carrying the code and message of its kind and its data,
even when the kind is not among the declared error kinds of the route; and
the declared error kinds are never consulted at dispatch time: replacing them
everywhere leaves the dispatch outcome untouched. -/
theorem base_error_propagates_undeclared (routes : List MethodRouteModel)
    (route : MethodRouteModel) (req : Json) (e : BaseError)
    (hvr : validateJsonRpcRequest req = .ok)
    (hfind : routes.find? (fun r => r.name == methodName req) = some route)
    (hval : route.validation req = [])
    (hh : route.handler req = .baseError e)
    (hnd : e.kind ∉ route.declaredErrors) :
    single_req_job routes req = .resp (get_resp { e with req := some req }) ∧
    (get_resp { e with req := some req }).getField "error" =
      some (Json.obj ([("code", Json.num e.kind.code), ("message", Json.str e.kind.message)] ++
        (if e.data.truthy then [("data", e.data)] else []))) ∧
    ∀ newDecl : List ErrorKind,
      single_req_job (routes.map (fun r => { r with declaredErrors := newDecl })) req =
        single_req_job routes req := by
  have hcr : content_resp route req = get_resp { e with req := some req } := by
    simp [content_resp, jsonrpc_app, hval, hh]
  refine ⟨?_, get_resp_error_member { e with req := some req },
    fun newDecl => single_req_job_ignores_declared routes newDecl req⟩
  simp [single_req_job, hvr, hfind, jsonrpc_app_content, hcr,
    get_resp_has_error_key { e with req := some req }]

def demoCustomError : BaseError :=
  { kind := { code := 5000, message := "My error" },
    data := Json.obj [("details", Json.str "boom")] }

def demoRaiseRoute : MethodRouteModel :=
  { name := "raiser", declaredErrors := [],
    validation := fun _ => [], handler := fun _ => .baseError demoCustomError }

def raiseReq : Json :=
  Json.obj [("jsonrpc", Json.str "2.0"), ("id", Json.num 3),
            ("method", Json.str "raiser"), ("params", Json.obj [])]

theorem base_error_propagates_undeclared_witness :
    single_req_job [demoRaiseRoute] raiseReq =
      .resp (get_resp { demoCustomError with req := some raiseReq }) ∧
    (get_resp { demoCustomError with req := some raiseReq }).getField "error" =
      some (Json.obj [("code", Json.num 5000), ("message", Json.str "My error"),
        ("data", Json.obj [("details", Json.str "boom")])]) := by
  have h := base_error_propagates_undeclared [demoRaiseRoute] demoRaiseRoute raiseReq
    demoCustomError rfl rfl rfl rfl (List.not_mem_nil _)
  exact ⟨h.1, h.2.1⟩

/-! ## C2 -/

/-- C2: for every batch item, the item contributes an entry to the collected
output exactly when its outcome is an error response or the raw request
object contains an id key; and whenever the collected entry list of a
non-empty request list is empty, the HTTP response carries no body at all. -/
theorem batch_item_inclusion_and_no_content (routes : List MethodRouteModel) (body : Json)
    (hne : req_list_of body ≠ []) :
    (∀ req ∈ req_list_of body,
      (job_entry req (single_req_job routes req)).isSome =
        (outcome_is_error (single_req_job routes req) || req.hasKey "id")) ∧
    (collect_responses (single_req_job routes) (req_list_of body) = [] →
      jsonrpc_app_response (.ok body) routes = { body := none }) := by
  constructor
  · intro req _
    cases hvr : validateJsonRpcRequest req with
    | dictError => simp [single_req_job, hvr, job_entry, outcome_is_error]
    | fieldErrors errs => simp [single_req_job, hvr, job_entry, outcome_is_error]
    | ok =>
      cases hf : routes.find? (fun r => r.name == methodName req) with
      | none => simp [single_req_job, hvr, hf, job_entry, outcome_is_error]
      | some route =>
        simp only [single_req_job, hvr, hf]
        cases he : (content_resp route req).hasKey "error" <;>
          cases hid : req.hasKey "id" <;>
            simp [jsonrpc_app_content, he, hid, job_entry, outcome_is_error]
  · intro hc
    cases body with
    | arr l =>
      cases l with
      | nil => exact absurd rfl hne
      | cons r rest =>
        simp only [req_list_of] at hc
        simp [jsonrpc_app_response, entrypoint_dispatch, hc]
    | null =>
      simp only [req_list_of] at hc
      simp [jsonrpc_app_response, entrypoint_dispatch, hc]
    | bool b =>
      simp only [req_list_of] at hc
      simp [jsonrpc_app_response, entrypoint_dispatch, hc]
    | num n =>
      simp only [req_list_of] at hc
      simp [jsonrpc_app_response, entrypoint_dispatch, hc]
    | str s =>
      simp only [req_list_of] at hc
      simp [jsonrpc_app_response, entrypoint_dispatch, hc]
    | obj fs =>
      simp only [req_list_of] at hc
      simp [jsonrpc_app_response, entrypoint_dispatch, hc]

def notifReq : Json :=
  Json.obj [("jsonrpc", Json.str "2.0"), ("method", Json.str "probe"),
            ("params", Json.obj [])]

theorem batch_item_inclusion_and_no_content_witness :
    ((job_entry notifReq (single_req_job demoRoutes notifReq)).isSome =
      (outcome_is_error (single_req_job demoRoutes notifReq) || notifReq.hasKey "id")) ∧
    jsonrpc_app_response (.ok (Json.arr [notifReq])) demoRoutes = { body := none } := by
  have h := batch_item_inclusion_and_no_content demoRoutes (Json.arr [notifReq])
    (List.cons_ne_nil _ _)
  exact ⟨h.1 notifReq (List.mem_singleton.mpr rfl), h.2 rfl⟩

/-! ## C9 -/

/-- C9: an item whose raw request object contains the id key with the
explicit value null is not a notification: it always contributes an entry to
the collected output, and when its handler succeeds the entry is the success
response. -/
theorem null_id_not_notification (routes : List MethodRouteModel)
    (fields : List (String × Json))
    (hid : lookupField fields "id" = some Json.null) :
    (job_entry (Json.obj fields) (single_req_job routes (Json.obj fields))).isSome = true ∧
    ∀ route result,
      validateJsonRpcRequest (Json.obj fields) = .ok →
      routes.find? (fun r => r.name == methodName (Json.obj fields)) = some route →
      route.validation (Json.obj fields) = [] →
      route.handler (Json.obj fields) = .ok result →
      single_req_job routes (Json.obj fields) =
        .resp (serialize_success result (Json.obj fields)) := by
  have hkey : (Json.obj fields).hasKey "id" = true := by
    simp [Json.hasKey, Json.getField, hid]
  constructor
  · cases hvr : validateJsonRpcRequest (Json.obj fields) with
    | dictError => simp [single_req_job, hvr, job_entry]
    | fieldErrors errs => simp [single_req_job, hvr, job_entry]
    | ok =>
      cases hf : routes.find? (fun r => r.name == methodName (Json.obj fields)) with
      | none => simp [single_req_job, hvr, hf, job_entry]
      | some route =>
        simp [single_req_job, hvr, hf, jsonrpc_app_content, hkey, job_entry]
  · intro route result h1 h2 h3 h4
    have hcr : content_resp route (Json.obj fields) =
        serialize_success result (Json.obj fields) := by
      simp [content_resp, jsonrpc_app, h3, h4]
    simp [single_req_job, h1, h2, jsonrpc_app_content, hcr, hkey]

/-! ## C3 -/

theorem find?_eq_head_filter {α : Type} (p : α → Bool) (l : List α) :
    l.find? p = (l.filter p).head? := by
  induction l with
  | nil => rfl
  | cons a t ih =>
    cases h : p a with
    | true =>
      rw [List.find?_cons_of_pos _ h, List.filter_cons_of_pos h]
      rfl
    | false =>
      rw [List.find?_cons_of_neg _ (by simp [h]), List.filter_cons_of_neg (by simp [h])]
      exact ih

theorem spawnFrom_filter_lt (exec : Json → JobResult) (l : List Json) :
    ∀ (n i : Nat), i < n →
      (spawnFrom exec n l).filter (fun t => t.1 == i) = [] := by
  induction l with
  | nil => intro n i _; rfl
  | cons req rest ih =>
    intro n i h
    have hne : (n == i) = false := by
      simp [Nat.ne_of_gt h]
    simp [spawnFrom, List.filter_cons, hne, ih (n + 1) i (Nat.lt_succ_of_lt h)]

theorem spawnFrom_filter (exec : Json → JobResult) (l : List Json) :
    ∀ (n i : Nat),
      (spawnFrom exec n l).filter (fun t => t.1 == i) = [] ∨
      ∃ req, (spawnFrom exec n l).filter (fun t => t.1 == i) = [(i, req, exec req)] := by
  induction l with
  | nil => intro n i; left; rfl
  | cons req rest ih =>
    intro n i
    by_cases h : n = i
    · subst h
      right
      refine ⟨req, ?_⟩
      simp [spawnFrom, List.filter_cons,
        spawnFrom_filter_lt exec rest (n + 1) n (Nat.lt_succ_self n)]
    · have hne : (n == i) = false := by simp [h]
      simpa [spawnFrom, List.filter_cons, hne] using ih (n + 1) i

theorem await_job_perm (exec : Json → JobResult) (l : List Json)
    (log : List (Nat × Json × JobResult))
    (hperm : log.Perm (spawn_jobs exec l)) (i : Nat) :
    await_job log i = await_job (spawn_jobs exec l) i := by
  unfold await_job spawn_jobs
  unfold spawn_jobs at hperm
  have hfp := hperm.filter (fun t => t.1 == i)
  rcases spawnFrom_filter exec l 0 i with h | ⟨req, h⟩
  · rw [h] at hfp
    rw [find?_eq_head_filter, find?_eq_head_filter, h, hfp.eq_nil]
  · rw [h] at hfp
    rw [find?_eq_head_filter, find?_eq_head_filter, h, List.perm_singleton.mp hfp]

theorem collectFrom_congr (log1 log2 : List (Nat × Json × JobResult))
    (h : ∀ i, await_job log1 i = await_job log2 i) :
    ∀ (l : List Json) (n : Nat), collectFrom log1 n l = collectFrom log2 n l := by
  intro l
  induction l with
  | nil => intro n; rfl
  | cons req rest ih => intro n; simp [collectFrom, h n, ih (n + 1)]

theorem await_job_cons_ne (x : Nat × Json × JobResult)
    (log : List (Nat × Json × JobResult)) (m : Nat) (h : (x.1 == m) = false) :
    await_job (x :: log) m = await_job log m := by
  unfold await_job
  simp [List.find?_cons, h]

theorem collectFrom_cons_lt (x : Nat × Json × JobResult)
    (log : List (Nat × Json × JobResult)) :
    ∀ (l : List Json) (n : Nat), x.1 < n →
      collectFrom (x :: log) n l = collectFrom log n l := by
  intro l
  induction l with
  | nil => intro n _; rfl
  | cons req rest ih =>
    intro n h
    have hne : (x.1 == n) = false := by simp [Nat.ne_of_lt h]
    simp [collectFrom, await_job_cons_ne x log n hne, ih (n + 1) (Nat.lt_succ_of_lt h)]

theorem collectFrom_spawnFrom (exec : Json → JobResult) :
    ∀ (l : List Json) (n : Nat),
      collectFrom (spawnFrom exec n l) n l = collect_responses exec l := by
  intro l
  induction l with
  | nil => intro n; rfl
  | cons req rest ih =>
    intro n
    have hself : await_job ((n, req, exec req) :: spawnFrom exec (n + 1) rest) n = exec req := by
      unfold await_job
      simp [List.find?_cons]
    have hrest := collectFrom_cons_lt (n, req, exec req) (spawnFrom exec (n + 1) rest)
      rest (n + 1) (Nat.lt_succ_self n)
    simp only [spawnFrom, collectFrom, hself, hrest, ih (n + 1)]
    cases hj : job_entry req (exec req) <;>
      simp [collect_responses, List.filterMap_cons, hj]

/-- C3: the collection loop run against any completion order of the spawned
jobs yields the same list as the input-order collection (the payload order is
the original array order, not the completion order); a batch body whose
surviving entries are non-empty yields an array payload of exactly those
entries, and a non-array body yields its single surviving entry unwrapped. -/
theorem batch_order_and_shape (routes : List MethodRouteModel) (l : List Json)
    (log : List (Nat × Json × JobResult))
    (hperm : log.Perm (spawn_jobs (single_req_job routes) l)) :
    collectFrom log 0 l = collect_responses (single_req_job routes) l ∧
    (collect_responses (single_req_job routes) l ≠ [] →
      entrypoint_dispatch (Json.arr l) (single_req_job routes) =
        .content (Json.arr (collect_responses (single_req_job routes) l))) ∧
    (∀ b : Json, b.isArr = false →
      ∀ r rest, collect_responses (single_req_job routes) [b] = r :: rest →
        entrypoint_dispatch b (single_req_job routes) = .content r) := by
  refine ⟨?_, ?_, ?_⟩
  · have hcongr := collectFrom_congr log (spawn_jobs (single_req_job routes) l)
      (await_job_perm (single_req_job routes) l log hperm) l 0
    rw [hcongr]
    exact collectFrom_spawnFrom (single_req_job routes) l 0
  · intro hne
    cases l with
    | nil => exact absurd rfl hne
    | cons r rest =>
      cases hc : collect_responses (single_req_job routes) (r :: rest) with
      | nil => exact absurd hc hne
      | cons y ys => simp [entrypoint_dispatch, hc]
  · intro b hb r rest hc
    cases b with
    | arr xs => simp [Json.isArr] at hb
    | null => simp [entrypoint_dispatch, hc]
    | bool v => simp [entrypoint_dispatch, hc]
    | num v => simp [entrypoint_dispatch, hc]
    | str v => simp [entrypoint_dispatch, hc]
    | obj fs => simp [entrypoint_dispatch, hc]

def reqA : Json :=
  Json.obj [("jsonrpc", Json.str "2.0"), ("id", Json.num 1),
            ("method", Json.str "probe"), ("params", Json.obj [])]

def reqB : Json :=
  Json.obj [("jsonrpc", Json.str "2.0"), ("id", Json.num 2),
            ("method", Json.str "missing"), ("params", Json.obj [])]

/-- A completion log in which the second batch item finished first. -/
def c3Log : List (Nat × Json × JobResult) :=
  [(1, reqB, single_req_job demoRoutes reqB), (0, reqA, single_req_job demoRoutes reqA)]

theorem batch_order_and_shape_witness :
    collectFrom c3Log 0 [reqA, reqB] =
      collect_responses (single_req_job demoRoutes) [reqA, reqB] ∧
    entrypoint_dispatch (Json.arr [reqA, reqB]) (single_req_job demoRoutes) =
      .content (Json.arr (collect_responses (single_req_job demoRoutes) [reqA, reqB])) ∧
    entrypoint_dispatch reqA (single_req_job demoRoutes) =
      .content (serialize_success (Json.str "pong") reqA) := by
  have h := batch_order_and_shape demoRoutes [reqA, reqB] c3Log
    (List.Perm.swap (0, reqA, single_req_job demoRoutes reqA)
      (1, reqB, single_req_job demoRoutes reqB) [])
  exact ⟨h.1, h.2.1 (List.cons_ne_nil _ _),
    h.2.2 reqA rfl (serialize_success (Json.str "pong") reqA) [] rfl⟩

def nullIdFields : List (String × Json) :=
  [("jsonrpc", Json.str "2.0"), ("id", Json.null),
   ("method", Json.str "probe"), ("params", Json.obj [])]

theorem null_id_not_notification_witness :
    (job_entry (Json.obj nullIdFields)
      (single_req_job demoRoutes (Json.obj nullIdFields))).isSome = true ∧
    single_req_job demoRoutes (Json.obj nullIdFields) =
      .resp (serialize_success (Json.str "pong") (Json.obj nullIdFields)) := by
  have h := null_id_not_notification demoRoutes nullIdFields rfl
  exact ⟨h.1, h.2 demoProbe (Json.str "pong") rfl rfl rfl rfl⟩

theorem unexpected_exception_internal_error_witness :
    jsonrpc_app demoFailRoute (Json.obj [("id", Json.num 1)]) = .error { kind := InternalError } ∧
    InternalError.code = -32603 ∧
    get_resp { kind := InternalError, req := some (Json.obj [("id", Json.num 1)]) } =
      Json.obj [("jsonrpc", Json.str "2.0"),
        ("error", Json.obj [("code", Json.num (-32603)), ("message", Json.str "Internal error")]),
        ("id", Json.num 1)] :=
  unexpected_exception_internal_error demoFailRoute (Json.obj [("id", Json.num 1)])
    "disk exploded" rfl rfl

/-! ## C5 -/

theorem compLookup_append_of_some (l1 l2 : List ((String × String) × String))
    (k : String × String) (v : String) (h : compLookup l1 k = some v) :
    compLookup (l1 ++ l2) k = some v := by
  induction l1 with
  | nil => simp [compLookup] at h
  | cons x t ih =>
    obtain ⟨xk, xv⟩ := x
    by_cases hk : xk = k
    · simpa [compLookup, hk] using (by simpa [compLookup, hk] using h : xv = v)
    · simp [compLookup, hk] at h ⊢
      exact ih h

theorem compLookup_append_self (l : List ((String × String) × String))
    (k : String × String) (v : String) (h : compLookup l k = none) :
    compLookup (l ++ [(k, v)]) k = some v := by
  induction l with
  | nil => simp [compLookup]
  | cons x t ih =>
    obtain ⟨xk, xv⟩ := x
    by_cases hk : xk = k
    · simp [compLookup, hk] at h
    · simp [compLookup, hk] at h ⊢
      exact ih h

theorem component_name_ok_lookup (comps comps2 : List ((String × String) × String))
    (k : String × String) (s : String) (h : component_name comps k s = .ok comps2) :
    compLookup comps2 k = some s := by
  unfold component_name at h
  cases hl : compLookup comps k with
  | some t =>
    rw [hl] at h
    by_cases he : t = s
    · simp [he] at h
      rw [← h, hl, he]
    · simp [he] at h
  | none =>
    rw [hl] at h
    simp at h
    rw [← h]
    exact compLookup_append_self comps k s hl

theorem component_name_ok_mono (comps comps2 : List ((String × String) × String))
    (k : String × String) (s : String) (h : component_name comps k s = .ok comps2) :
    ∃ extra, comps2 = comps ++ extra := by
  unfold component_name at h
  cases hl : compLookup comps k with
  | some t =>
    rw [hl] at h
    by_cases he : t = s
    · simp [he] at h
      exact ⟨[], by simp [h]⟩
    · simp [he] at h
  | none =>
    rw [hl] at h
    simp at h
    exact ⟨[(k, s)], h.symm⟩

theorem register_components_mono (entries : List ((String × String) × String)) :
    ∀ comps comps2, register_components comps entries = .ok comps2 →
      ∃ extra, comps2 = comps ++ extra := by
  induction entries with
  | nil =>
    intro comps comps2 h
    simp [register_components] at h
    exact ⟨[], by simp [h]⟩
  | cons e rest ih =>
    intro comps comps2 h
    obtain ⟨k, s⟩ := e
    unfold register_components at h
    cases hc : component_name comps k s with
    | error m => rw [hc] at h; simp at h
    | ok c1 =>
      rw [hc] at h
      obtain ⟨e1, he1⟩ := component_name_ok_mono comps c1 k s hc
      obtain ⟨e2, he2⟩ := ih c1 comps2 h
      exact ⟨e1 ++ e2, by rw [he2, he1, List.append_assoc]⟩

theorem register_components_idem (entries : List ((String × String) × String)) :
    ∀ comps comps2, register_components comps entries = .ok comps2 →
      register_components comps2 entries = .ok comps2 := by
  induction entries with
  | nil =>
    intro comps comps2 h
    simp [register_components] at h
    simp [register_components]
  | cons e rest ih =>
    intro comps comps2 h
    obtain ⟨k, s⟩ := e
    unfold register_components at h
    cases hc : component_name comps k s with
    | error m => rw [hc] at h; simp at h
    | ok c1 =>
      rw [hc] at h
      have hl1 := component_name_ok_lookup comps c1 k s hc
      obtain ⟨extra, hex⟩ := register_components_mono rest c1 comps2 h
      have hl2 : compLookup comps2 k = some s := by
        rw [hex]
        exact compLookup_append_of_some c1 extra k s hl1
      have hcn2 : component_name comps2 k s = .ok comps2 := by
        unfold component_name
        rw [hl2]
        simp
      unfold register_components
      rw [hcn2]
      exact ih c1 comps2 h

theorem register_components_conflict (entries : List ((String × String) × String)) :
    ∀ (comps : List ((String × String) × String)) (k : String × String) (s t : String),
      (k, s) ∈ entries → compLookup comps k = some t → t ≠ s →
      ∃ msg, register_components comps entries = .error msg := by
  induction entries with
  | nil =>
    intro comps k s t hmem _ _
    exact absurd hmem (List.not_mem_nil _)
  | cons e rest ih =>
    intro comps k s t hmem hl hne
    obtain ⟨k0, s0⟩ := e
    rcases List.mem_cons.mp hmem with heq | htail
    · injection heq with hk hs
      subst hk
      subst hs
      refine ⟨"Different models with the same name detected", ?_⟩
      simp only [register_components, component_name]
      rw [hl]
      simp [hne]
    · cases hc : component_name comps k0 s0 with
      | error m =>
        refine ⟨m, ?_⟩
        simp only [register_components]
        rw [hc]
      | ok c1 =>
        obtain ⟨extra, hex⟩ := component_name_ok_mono comps c1 k0 s0 hc
        have hl1 : compLookup c1 k = some t := by
          rw [hex]
          exact compLookup_append_of_some comps extra k t hl
        obtain ⟨msg, hmsg⟩ := ih c1 k s t htail hl1 hne
        refine ⟨msg, ?_⟩
        simp only [register_components]
        rw [hc]
        exact hmsg

def demoFunc : FuncSig :=
  { funcName := "echo", module := "app", paramNames := ["data"],
    paramsSchema := "data str", resultSchema := "str" }

/-- The registration state after one successful registration of demoFunc. -/
def demoSt1 : RegState :=
  { comps := method_components "echo" demoFunc, routes := ["echo"] }

/-- C5 counterexample: the claim that registration fails on a method name
collision with an existing registration, or with the reserved wrapper name,
is false.  Registering the very same method twice succeeds (the generated
components are found with equal schemas and reused silently), and a method
may be named with the reserved wrapper name: only a handler parameter of
that name is rejected. -/
theorem add_method_route_counterexample :
    add_method_route { comps := [], routes := [] } none demoFunc = .ok demoSt1 ∧
    demoSt1.routes = ["echo"] ∧
    regOk (add_method_route demoSt1 none demoFunc) = true ∧
    regOk (add_method_route { comps := [], routes := [] } (some "__request__") demoFunc) = true :=
  ⟨rfl, rfl, rfl, rfl⟩

/-- C5 amended: registration fails when the handler declares a parameter
named with the reserved wrapper name, or when a generated schema component of
the method name already exists with a different schema; a repeated
registration of an identical method succeeds and appends the duplicate name
to the route list. -/
theorem add_method_route_checks (st : RegState) (nameOpt : Option String) (f : FuncSig) :
    (f.paramNames.contains "__request__" = true →
      add_method_route st nameOpt f =
        .error "Parameter name reserved, please use other name") ∧
    (∀ (k : String × String) (s t : String), f.paramNames.contains "__request__" = false →
      (k, s) ∈ method_components (nameOpt.getD f.funcName) f →
      compLookup st.comps k = some t →
      t ≠ s →
      regOk (add_method_route st nameOpt f) = false) ∧
    (∀ st2 : RegState, add_method_route st nameOpt f = .ok st2 →
      ∃ st3 : RegState, add_method_route st2 nameOpt f = .ok st3 ∧
        st3.routes = st2.routes ++ [nameOpt.getD f.funcName]) := by
  refine ⟨?_, ?_, ?_⟩
  · intro hres
    unfold add_method_route
    rw [if_pos hres]
  · intro k s t hres hmem hl hne
    unfold add_method_route
    rw [if_neg (by simpa [List.contains] using hres)]
    obtain ⟨msg, hmsg⟩ := register_components_conflict
      (method_components (nameOpt.getD f.funcName) f) st.comps k s t hmem hl hne
    rw [hmsg]
    rfl
  · intro st2 h
    unfold add_method_route at h
    cases hres : f.paramNames.contains "__request__" with
    | true =>
      rw [if_pos hres] at h
      exact Except.noConfusion h
    | false =>
      rw [if_neg (by simpa [List.contains] using hres)] at h
      cases hreg : register_components st.comps
          (method_components (nameOpt.getD f.funcName) f) with
      | error m =>
        rw [hreg] at h
        exact Except.noConfusion h
      | ok comps2 =>
        rw [hreg] at h
        have h2 : ({ comps := comps2, routes := st.routes ++ [nameOpt.getD f.funcName] } :
            RegState) = st2 := by
          simpa using h
        have hc2 : st2.comps = comps2 := by rw [← h2]
        have hidem := register_components_idem
          (method_components (nameOpt.getD f.funcName) f) st.comps comps2 hreg
        refine ⟨{ comps := comps2, routes := st2.routes ++ [nameOpt.getD f.funcName] }, ?_, rfl⟩
        unfold add_method_route
        rw [if_neg (by simpa [List.contains] using hres), hc2, hidem]

theorem add_method_route_checks_witness :
    (∃ st3 : RegState, add_method_route demoSt1 none demoFunc = .ok st3 ∧
      st3.routes = ["echo"] ++ ["echo"]) ∧
    regOk (add_method_route demoSt1 none
      { demoFunc with resultSchema := "int" }) = false ∧
    regOk (add_method_route demoSt1 none
      { demoFunc with paramsSchema := "data int" }) = false := by
  refine ⟨?_, ?_, ?_⟩
  · exact (add_method_route_checks { comps := [], routes := [] } none demoFunc).2.2 demoSt1 rfl
  · exact (add_method_route_checks demoSt1 none
      { demoFunc with resultSchema := "int" }).2.1
      ("_Response[echo]", "app") (responseSchema "int") (responseSchema "str")
      rfl (by decide) rfl (by decide)
  · exact (add_method_route_checks demoSt1 none
      { demoFunc with paramsSchema := "data int" }).2.1
      ("_Params[echo]", "app") "data int" "data str"
      rfl (by decide) rfl (by decide)

end Jrpc
